import Mathlib

/-
  Verification of the nanobot knowledge subsystem
  (src/nanobot/knowledge/{text_chunker,store,rocketmq_init}.py)
  via a shallow embedding of its pure core into Lean.

  Modelling conventions:
  * Python strings are Lean `String`s; `len` is `String.length` (both count
    Unicode scalar values).  Python `str.strip()` and `str.replace` are
    modelled by kernel-reducible functions over `List Char`
    (`trimList`, `removeMarkerAux`); whitespace is `Char.isWhitespace`
    (identical to Python on the ASCII whitespace involved here).
  * Python float similarity scores are modelled as rationals `ℚ`; the
    claims under study concern ordering, thresholding, deduplication and
    truncation, none of which depend on float rounding.
  * Python `list.sort(key=..., reverse=True)` is a stable descending sort;
    it is modelled by `List.insertionSort` with relation
    `fun a b => key b ≤ key a`, which is the stable descending sort.
  * Fallible external collaborators (the splitter, the embedder) are
    modelled as explicit function parameters returning `Except Unit _`;
    a Python `raise` is the `.error` case.
  * The Chroma vector index is modelled as an association list of
    collections, each a list of chunk records.  `collection.delete(ids)`
    where `ids` are exactly the ids of the chunks whose metadata matches
    `item_id` is modelled as filtering those records out (Chroma ids are
    unique within a collection).
-/

namespace Nanobot

/-! ## Text chunker (`TextChunker.chunk_text`, text_chunker.py) -/

/-- Python truthiness/blank test `not text or not text.strip()`:
the string is empty or consists only of whitespace. -/
def isBlank (s : String) : Bool := s.toList.all Char.isWhitespace

/-- One element of the list returned by `chunk_text`: the chunk text plus the
original metadata dict extended with `chunk_index` and `total_chunks`.
The untouched part of the metadata dict is kept abstract as `meta : α`. -/
structure Chunk (α : Type) where
  text : String
  meta : α
  chunk_index : Nat
  total_chunks : Nat
deriving Repr, DecidableEq

/-- The manual chunk-boundary marker `"<!-- CHUNK_BOUNDARY -->"`. -/
def boundaryMarker : List Char := "<!-- CHUNK_BOUNDARY -->".toList

/-- Python `s.replace(pat, "")` for the fixed non-empty pattern
`boundaryMarker`: removes every occurrence, scanning left to right,
non-overlapping.  The fuel argument (instantiated with the string length)
makes the recursion structural; one fuel unit consumes at least one
character, so fuel `s.length` is always enough. -/
def removeMarkerAux : Nat → List Char → List Char
  | _, [] => []
  | 0, s => s
  | fuel+1, c :: rest =>
    if boundaryMarker.isPrefixOf (c :: rest) then
      removeMarkerAux fuel ((c :: rest).drop boundaryMarker.length)
    else c :: removeMarkerAux fuel rest

/-- Python `s.strip()`: drop leading and trailing whitespace. -/
def trimList (s : List Char) : List Char :=
  ((s.dropWhile Char.isWhitespace).reverse.dropWhile Char.isWhitespace).reverse

/-- `len(chunk.replace("<!-- CHUNK_BOUNDARY -->", "").strip())` —
the length used by the under-length-chunk drop filter. -/
def cleanLen (c : String) : Nat :=
  (trimList (removeMarkerAux c.length c.toList)).length

/-- `TextChunker.chunk_text(text, metadata)` (text_chunker.py lines 97-203),
with the standard (non-smart) splitter.  The external
`RecursiveCharacterTextSplitter.split_text` call is passed in as
`split : Except Unit (List String)`; `.error` models the splitter raising,
which the Python code catches and turns into the single-chunk fallback.
The survivor loop appends with `chunk_index = len(result)` and afterwards
back-fills `total_chunks = len(result)`, i.e. survivors are enumerated
densely. -/
def chunk_text (chunk_size : Nat) (split : Except Unit (List String))
    (text : String) (md : α) : List (Chunk α) :=
  if isBlank text then []
  else if text.length ≤ chunk_size then
    [{ text := text, meta := md, chunk_index := 0, total_chunks := 1 }]
  else
    match split with
    | .error _ =>
      [{ text := text, meta := md, chunk_index := 0, total_chunks := 1 }]
    | .ok cs =>
      let survivors := cs.filter (fun c => !(cleanLen c < 10))
      survivors.enum.map (fun p =>
        { text := p.2, meta := md, chunk_index := p.1,
          total_chunks := survivors.length })

/-! ### Chunker lemmas -/

variable {α : Type}

/-- The `chunk_index` fields of a chunking result are exactly `0, 1, ...,
length-1` in order, in every branch of `chunk_text`. -/
lemma chunk_text_index_map (cs : Nat) (sp : Except Unit (List String))
    (text : String) (md : α) :
    (chunk_text cs sp text md).map Chunk.chunk_index
      = List.range (chunk_text cs sp text md).length := by
  unfold chunk_text
  by_cases hb : isBlank text
  · simp [hb]
  · by_cases hl : text.length ≤ cs
    · simp [hb, hl, List.range_succ]
    · cases sp with
      | error e => simp [hb, hl, List.range_succ]
      | ok cs2 =>
        simp only [hb, Bool.false_eq_true, if_false, hl, List.map_map]
        have hcomp :
            (Chunk.chunk_index (α := α) ∘ fun p : Nat × String =>
              { text := p.2, meta := md, chunk_index := p.1,
                total_chunks := (cs2.filter (fun c => !(cleanLen c < 10))).length })
            = Prod.fst := by
          funext p; rfl
        rw [hcomp, List.enum_map_fst, List.length_map, List.enum_length]

/-- Every chunk's `total_chunks` field equals the length of the returned
list, in every branch of `chunk_text`. -/
lemma chunk_text_total (cs : Nat) (sp : Except Unit (List String))
    (text : String) (md : α) :
    ∀ c ∈ chunk_text cs sp text md,
      c.total_chunks = (chunk_text cs sp text md).length := by
  unfold chunk_text
  by_cases hb : isBlank text
  · simp [hb]
  · by_cases hl : text.length ≤ cs
    · simp [hb, hl]
    · cases sp with
      | error e => simp [hb, hl]
      | ok cs2 =>
        simp only [hb, Bool.false_eq_true, if_false, hl, List.length_map,
          List.enum_length]
        intro c hc
        simp only [List.mem_map] at hc
        obtain ⟨p, _, hp⟩ := hc
        rw [← hp]

/-- Claim C7: for every input text and metadata, the chunk list returned by
`chunk_text` is contiguously numbered — for each `i` below the length of the
result exactly one chunk has `chunk_index == i` — and every chunk's
`total_chunks` field equals the length of the returned list, including when
under-length chunks have been dropped and the survivors renumbered. -/
theorem chunk_indices_contiguous (cs : Nat) (sp : Except Unit (List String))
    (text : String) (md : α) (i : Nat)
    (hi : i < (chunk_text cs sp text md).length) :
    ((chunk_text cs sp text md).filter (fun c => c.chunk_index == i)).length = 1
    ∧ ∀ c ∈ chunk_text cs sp text md,
        c.total_chunks = (chunk_text cs sp text md).length := by
  refine ⟨?_, chunk_text_total cs sp text md⟩
  have hcount :
      ((chunk_text cs sp text md).filter (fun c => c.chunk_index == i)).length
        = List.count i ((chunk_text cs sp text md).map Chunk.chunk_index) := by
    rw [← List.countP_eq_length_filter, List.count, List.countP_map]
    rfl
  rw [hcount, chunk_text_index_map]
  exact List.count_eq_one_of_mem (List.nodup_range _) (List.mem_range.mpr hi)

/-- Witness for C7 at a concrete over-length input with two surviving
chunks. -/
theorem chunk_indices_contiguous_witness :
    0 < (chunk_text 5 (Except.ok ["abcdefghij", "klmnopqrstu"])
          "0123456789" "m").length
    ∧ (((chunk_text 5 (Except.ok ["abcdefghij", "klmnopqrstu"])
          "0123456789" "m").filter (fun c => c.chunk_index == 0)).length = 1
      ∧ ∀ c ∈ chunk_text 5 (Except.ok ["abcdefghij", "klmnopqrstu"])
            "0123456789" "m",
          c.total_chunks
            = (chunk_text 5 (Except.ok ["abcdefghij", "klmnopqrstu"])
                "0123456789" "m").length) :=
  ⟨by decide,
   chunk_indices_contiguous 5 (Except.ok ["abcdefghij", "klmnopqrstu"])
     "0123456789" "m" 0 (by decide)⟩

/-- Counterexample to claim C5 as stated: the empty string has
`len(text) ≤ chunk_size`, yet `chunk_text` returns the empty list, not a
single chunk (the blank-input guard at text_chunker.py line 108 fires before
the `len(text) ≤ chunk_size` branch). -/
theorem chunk_text_short_blank_counterexample :
    ("" : String).length ≤ 1000
    ∧ (chunk_text 1000 (Except.ok []) "" "m").length ≠ 1 := by
  decide

/-- Claim C5 (amended): for every non-blank text with
`len(text) ≤ chunk_size` and every metadata, `chunk_text` returns exactly one
chunk whose text is the input unchanged, with `chunk_index = 0` and
`total_chunks = 1`. -/
theorem chunk_text_short_single_chunk (cs : Nat)
    (sp : Except Unit (List String)) (text : String) (md : α)
    (hb : isBlank text = false) (hl : text.length ≤ cs) :
    chunk_text cs sp text md
      = [{ text := text, meta := md, chunk_index := 0, total_chunks := 1 }] := by
  unfold chunk_text
  simp [hb, hl]

/-- Witness for amended C5 at a concrete short text. -/
theorem chunk_text_short_single_chunk_witness :
    isBlank "hello world" = false
    ∧ ("hello world" : String).length ≤ 1000
    ∧ chunk_text 1000 (Except.ok []) "hello world" "m"
        = [{ text := "hello world", meta := "m", chunk_index := 0,
             total_chunks := 1 }] :=
  ⟨by decide, by decide,
   chunk_text_short_single_chunk 1000 (Except.ok []) "hello world" "m"
     (by decide) (by decide)⟩

/-- Claim C8: `chunk_text` is a total function (the Python code catches every
internal exception), and on every input on which the internal splitting step
fails it returns the whole input text as one chunk with `chunk_index = 0` and
`total_chunks = 1`.  The splitting step runs exactly on non-blank inputs
longer than `chunk_size`. -/
theorem chunk_text_split_failure_fallback (cs : Nat) (text : String) (md : α)
    (hb : isBlank text = false) (hl : cs < text.length) :
    chunk_text cs (Except.error ()) text md
      = [{ text := text, meta := md, chunk_index := 0, total_chunks := 1 }] := by
  unfold chunk_text
  simp [hb, Nat.not_le.mpr hl]

/-- Witness for C8 at a concrete over-length text with a failing splitter. -/
theorem chunk_text_split_failure_fallback_witness :
    isBlank "0123456789" = false
    ∧ 5 < ("0123456789" : String).length
    ∧ chunk_text 5 (Except.error ()) "0123456789" "m"
        = [{ text := "0123456789", meta := "m", chunk_index := 0,
             total_chunks := 1 }] :=
  ⟨by decide, by decide,
   chunk_text_split_failure_fallback 5 "0123456789" "m" (by decide) (by decide)⟩

/-- Claim C10: for every text that is empty or consists only of whitespace,
`chunk_text` returns the empty list, regardless of metadata and chunk size. -/
theorem chunk_text_blank_empty (cs : Nat) (sp : Except Unit (List String))
    (text : String) (md : α) (hb : isBlank text = true) :
    chunk_text cs sp text md = [] := by
  unfold chunk_text
  simp [hb]

/-- Witness for C10 at a concrete whitespace-only text. -/
theorem chunk_text_blank_empty_witness :
    isBlank " \n\t " = true
    ∧ chunk_text 1000 (Except.ok []) " \n\t " "m" = [] :=
  ⟨by decide, chunk_text_blank_empty 1000 (Except.ok []) " \n\t " "m" (by decide)⟩

/-! ## Search (`ChromaKnowledgeStore.search_knowledge` and
`ChromaKnowledgeStore._search_by_metadata`, store.py) -/

/-- `similarity = 1 / (1 + distance)` — the conversion from Chroma's native
L2 distance to a similarity score (store.py line 741). -/
def similarity (d : ℚ) : ℚ := 1 / (1 + d)

/-- One entry of the semantic path's `all_results` list (store.py
lines 747-753): the chunk's `item_id` metadata field and the
`similarity_score` already converted from the native distance. -/
structure Hit where
  item_id : String
  similarity_score : ℚ
deriving Repr, DecidableEq

/-- The `seen_item_ids` deduplication loop shared by both search paths
(store.py lines 770-779 and 930-939): keep the first entry for each
`item_id`, in list order; `seen` is the set of ids already emitted. -/
def dedupBy {β : Type} (id : β → String) : List β → List String → List β
  | [], _ => []
  | h :: t, seen =>
    if id h ∈ seen then dedupBy id t seen
    else h :: dedupBy id t (id h :: seen)

/-- The pure tail of the semantic path of `search_knowledge` (store.py
lines 743-779), applied to the merged raw hits of all target collections in
accumulation order: drop hits whose similarity is below
`similarity_threshold` (line 744), sort descending by similarity score —
Python's `list.sort(key=..., reverse=True)` is the stable descending sort,
which `List.insertionSort` with relation `key b ≤ key a` computes — then
truncate to `top_k` (line 766), and only then deduplicate by `item_id`
(lines 770-779). -/
def search_semantic (top_k : Nat) (threshold : ℚ) (hits : List Hit) :
    List Hit :=
  let kept := hits.filter (fun h => !decide (h.similarity_score < threshold))
  let sorted := kept.insertionSort
    (fun a b => b.similarity_score ≤ a.similarity_score)
  dedupBy Hit.item_id (sorted.take top_k) []

/-- Python string comparison: lexicographic on Unicode code points. -/
def lexLe : List Char → List Char → Bool
  | [], _ => true
  | _ :: _, [] => false
  | a :: s, b :: t => a < b || (a == b && lexLe s t)

/-- Python `a <= b` on strings, used by the `created_at` sort key. -/
def strLe (a b : String) : Bool := lexLe a.toList b.toList

/-- One entry of the metadata path's `all_results` list (store.py
lines 905-910): the chunk's `item_id` and `created_at` metadata fields. -/
structure MetaHit where
  item_id : String
  created_at : String
deriving Repr, DecidableEq

/-- The pure tail of `_search_by_metadata` (store.py lines 918-939), applied
to the merged fetched chunk records of all target collections: sort by
`created_at` descending (stable, lines 919-922), truncate to `top_k` when
`top_k` is truthy (lines 925-926), and only then deduplicate by `item_id`
keeping the first occurrence (lines 930-939). -/
def search_by_metadata (top_k : Nat) (hits : List MetaHit) : List MetaHit :=
  let sorted := hits.insertionSort
    (fun a b => strLe b.created_at a.created_at = true)
  let truncated := if top_k = 0 then sorted else sorted.take top_k
  dedupBy MetaHit.item_id truncated []

/-! ### Deduplication lemmas -/

/-- Everything emitted by the dedup loop has an id outside the starting
`seen` set. -/
lemma dedupBy_not_mem_seen {β : Type} (id : β → String) (l : List β) :
    ∀ (seen : List String), ∀ x ∈ dedupBy id l seen, id x ∉ seen := by
  induction l with
  | nil => intro seen x hx; simp [dedupBy] at hx
  | cons h t ih =>
    intro seen x hx
    by_cases hmem : id h ∈ seen
    · simp only [dedupBy, if_pos hmem] at hx
      exact ih seen x hx
    · simp only [dedupBy, if_neg hmem] at hx
      rcases List.mem_cons.mp hx with rfl | hx2
      · exact hmem
      · intro hseen
        exact ih (id h :: seen) x hx2 (List.mem_cons_of_mem _ hseen)

/-- The ids of the dedup loop's output are pairwise distinct. -/
lemma dedupBy_map_nodup {β : Type} (id : β → String) (l : List β) :
    ∀ seen, ((dedupBy id l seen).map id).Nodup := by
  induction l with
  | nil => intro seen; simp [dedupBy]
  | cons h t ih =>
    intro seen
    by_cases hmem : id h ∈ seen
    · simp only [dedupBy, if_pos hmem]; exact ih seen
    · simp only [dedupBy, if_neg hmem, List.map_cons, List.nodup_cons]
      refine ⟨?_, ih (id h :: seen)⟩
      intro hc
      rcases List.mem_map.mp hc with ⟨x, hx, hxid⟩
      have hin : id x ∈ id h :: seen := by
        rw [hxid]; exact List.mem_cons_self _ _
      exact dedupBy_not_mem_seen id t (id h :: seen) x hx hin

/-- The dedup loop never lengthens its input. -/
lemma dedupBy_length_le {β : Type} (id : β → String) (l : List β) :
    ∀ seen, (dedupBy id l seen).length ≤ l.length := by
  induction l with
  | nil => intro seen; simp [dedupBy]
  | cons h t ih =>
    intro seen
    by_cases hmem : id h ∈ seen
    · simp only [dedupBy, if_pos hmem, List.length_cons]
      exact (ih seen).trans (Nat.le_succ _)
    · simp only [dedupBy, if_neg hmem, List.length_cons]
      exact Nat.succ_le_succ (ih _)

/-- On a list whose ids are pairwise distinct and disjoint from `seen`, the
dedup loop is the identity. -/
lemma dedupBy_eq_self {β : Type} (id : β → String) (l : List β) :
    ∀ seen, (l.map id).Nodup → (∀ x ∈ l, id x ∉ seen) →
      dedupBy id l seen = l := by
  induction l with
  | nil => intro seen _ _; simp [dedupBy]
  | cons h t ih =>
    intro seen hnd hdisj
    have hmem : id h ∉ seen := hdisj h (List.mem_cons_self _ _)
    simp only [List.map_cons, List.nodup_cons] at hnd
    simp only [dedupBy, if_neg hmem]
    congr 1
    apply ih _ hnd.2
    intro x hx hmem2
    rcases List.mem_cons.mp hmem2 with heq | hseen
    · exact hnd.1 (heq ▸ List.mem_map_of_mem id hx)
    · exact hdisj x (List.mem_cons_of_mem _ hx) hseen

/-! ### Claims C1 and C2 -/

/-- Concrete hit list for the C1 counterexample: item `A` has two matching
chunks scoring above item `B`'s single chunk. -/
def semanticHitsExample : List Hit :=
  [{ item_id := "A", similarity_score := 3 },
   { item_id := "A", similarity_score := 2 },
   { item_id := "B", similarity_score := 1 }]

/-- Counterexample to claim C1 as stated: the semantic path truncates to
`top_k` (store.py line 766) *before* deduplicating by `item_id`
(lines 770-779), not after.  With `top_k = 2`, threshold `0`, and hits from
two distinct items where item `A` has two chunks outscoring item `B`'s
chunk, at least `top_k` distinct items have chunks above the threshold, yet
only one item is returned. -/
theorem semantic_search_topk_counterexample :
    2 ≤ ((semanticHitsExample.filter
            (fun h => !decide (h.similarity_score < 0))).map
          Hit.item_id).dedup.length
    ∧ ((search_semantic 2 0 semanticHitsExample).map Hit.item_id).length ≠ 2 := by
  decide

/-- Claim C1 (amended): the semantic path merges all collections' hits,
drops those below the similarity threshold, sorts descending by similarity,
truncates to `top_k`, and then deduplicates by `item_id` — so an item
several of whose chunks match is returned at most once, and at most `top_k`
items are returned (possibly fewer than `top_k` distinct items even when at
least `top_k` distinct items have chunks above the threshold). -/
theorem semantic_search_each_item_once (top_k : Nat) (threshold : ℚ)
    (hits : List Hit) :
    ((search_semantic top_k threshold hits).map Hit.item_id).Nodup
    ∧ (search_semantic top_k threshold hits).length ≤ top_k := by
  unfold search_semantic
  refine ⟨dedupBy_map_nodup _ _ _, ?_⟩
  refine (dedupBy_length_le _ _ _).trans ?_
  rw [List.length_take]
  exact min_le_left _ _

/-- Concrete chunk-record list for the C2 counterexample: two items with
distinct ids, item `A` contributing two chunks. -/
def metaHitsExample : List MetaHit :=
  [{ item_id := "A", created_at := "2" },
   { item_id := "A", created_at := "2" },
   { item_id := "B", created_at := "1" }]

/-- Counterexample to claim C2 as stated: the metadata path truncates to
`top_k` (store.py lines 925-926) *before* deduplicating by `item_id`
(lines 930-939).  With `N = 2` items of distinct ids where item `A` has two
chunks newer than item `B`'s chunk, `search(domain, top_k = 2)` with no
query returns one distinct item id, not two. -/
theorem metadata_search_topk_counterexample :
    (metaHitsExample.map MetaHit.item_id).dedup.length = 2
    ∧ ((search_by_metadata 2 metaHitsExample).map MetaHit.item_id).length ≠ 2 := by
  decide

/-- Claim C2 (amended): the metadata path sorts chunk hits by `created_at`
descending, truncates to `top_k`, and then deduplicates by `item_id`
keeping the first occurrence; when each of the `N` fetched chunk records
belongs to a distinct item (one chunk per item), searching with
`top_k = N` returns exactly `N` pairwise distinct item ids. -/
theorem metadata_search_distinct_items (hits : List MetaHit)
    (h : (hits.map MetaHit.item_id).Nodup) :
    (search_by_metadata hits.length hits).length = hits.length
    ∧ ((search_by_metadata hits.length hits).map MetaHit.item_id).Nodup := by
  simp only [search_by_metadata]
  have hperm := List.perm_insertionSort
    (fun a b : MetaHit => strLe b.created_at a.created_at = true) hits
  have hlen := hperm.length_eq
  have htrunc :
      (if hits.length = 0 then
        hits.insertionSort
          (fun a b => strLe b.created_at a.created_at = true)
      else
        (hits.insertionSort
          (fun a b => strLe b.created_at a.created_at = true)).take
            hits.length)
      = hits.insertionSort
          (fun a b => strLe b.created_at a.created_at = true) := by
    split
    · rfl
    · exact List.take_of_length_le (le_of_eq hlen)
  rw [htrunc]
  have hnd2 :
      ((hits.insertionSort
        (fun a b => strLe b.created_at a.created_at = true)).map
          MetaHit.item_id).Nodup :=
    ((hperm.map MetaHit.item_id).nodup_iff).mpr h
  rw [dedupBy_eq_self _ _ _ hnd2 (by simp)]
  exact ⟨hlen, hnd2⟩

/-- Witness for amended C2: two single-chunk items with distinct ids and
`top_k = 2` yield exactly two distinct item ids. -/
theorem metadata_search_distinct_items_witness :
    (([{ item_id := "A", created_at := "2" },
       { item_id := "B", created_at := "1" }] : List MetaHit).map
         MetaHit.item_id).Nodup
    ∧ ((search_by_metadata
          ([{ item_id := "A", created_at := "2" },
            { item_id := "B", created_at := "1" }] : List MetaHit).length
          [{ item_id := "A", created_at := "2" },
           { item_id := "B", created_at := "1" }]).length
        = ([{ item_id := "A", created_at := "2" },
            { item_id := "B", created_at := "1" }] : List MetaHit).length
      ∧ ((search_by_metadata
            ([{ item_id := "A", created_at := "2" },
              { item_id := "B", created_at := "1" }] : List MetaHit).length
            [{ item_id := "A", created_at := "2" },
             { item_id := "B", created_at := "1" }]).map
              MetaHit.item_id).Nodup) :=
  ⟨by decide,
   metadata_search_distinct_items
     [{ item_id := "A", created_at := "2" },
      { item_id := "B", created_at := "1" }] (by decide)⟩

/-! ## Item lifecycle (`ChromaKnowledgeStore.add_knowledge`,
`update_knowledge`, `delete_knowledge`, store.py) -/

/-- One record of a Chroma collection: the record id (`{item_id}_chunk_{i}`),
the `item_id` metadata field, and the document text.  The remaining
denormalized metadata plays no role in the claims under study. -/
structure ChunkRecord where
  chunk_id : String
  item_id : String
  text : String
deriving Repr, DecidableEq

/-- The vector index: the list of collections, each a name (`knowledge_` +
domain, abbreviated here to the domain itself) paired with its records, in
`list_collections` order. -/
abbrev Store := List (String × List ChunkRecord)

/-- The domain-locating scan shared by `update_knowledge` (store.py
lines 997-1020) and `delete_knowledge` (lines 1150-1172): walk all
collections in `list_collections` order and return the name of the first
one containing a chunk whose `item_id` metadata matches (the Python code
probes with `collection.get(where={"item_id": item_id}, limit=1)`). -/
def findDomain (st : Store) (iid : String) : Option String :=
  (st.find? (fun c => c.2.any (fun r => r.item_id == iid))).map Prod.fst

/-- Fetch a collection's records by name (first match);
a missing collection reads as empty. -/
def getColl (st : Store) (d : String) : List ChunkRecord :=
  ((st.find? (fun c => c.1 == d)).map Prod.snd).getD []

/-- `_get_or_create_collection` followed by replacing the collection's
records: overwrite every collection named `d`, or append a fresh one when
none exists. -/
def setColl (st : Store) (d : String) (coll : List ChunkRecord) : Store :=
  if st.any (fun c => c.1 == d) then
    st.map (fun c => if c.1 == d then (d, coll) else c)
  else st ++ [(d, coll)]

/-- The records written for `item_id` from the chunk texts: ids are
`{item_id}_chunk_{i}` with `i` the batch position (store.py
lines 610-615 and 1103-1108). -/
def newRecords (iid : String) (texts : List String) : List ChunkRecord :=
  texts.enum.map (fun p =>
    { chunk_id := iid ++ "_chunk_" ++ toString p.1, item_id := iid,
      text := p.2 })

/-- A failing embedder: `embed_batch` raises `EmbeddingModelError` on every
input. -/
def embedFail : List String → Except Unit (List (List Int)) :=
  fun _ => Except.error ()

/-- `ChromaKnowledgeStore.add_knowledge` (store.py lines 541-636) with the
item id already minted (the id is a timestamp, irrelevant here) and the
chunker and embedder passed in as functions: chunk the content; if no
chunks result return the id without touching the index; embed the chunk
texts — a raise propagates out of the call (lines 595-599 re-raise, the
outer handler at 631-636 re-raises) with the index untouched, since
`_get_or_create_collection` and `collection.add` only run afterwards
(lines 601-623). -/
def add_knowledge (chunkF : String → List String)
    (embed : List String → Except Unit (List (List Int)))
    (st : Store) (domain iid content : String) :
    Except Unit String × Store :=
  let texts := chunkF content
  if texts.isEmpty then (Except.ok iid, st)
  else
    match embed texts with
    | .error e => (Except.error e, st)
    | .ok _ => (Except.ok iid, setColl st domain (getColl st domain ++ newRecords iid texts))

/-- `ChromaKnowledgeStore.update_knowledge` (store.py lines 974-1129):
locate the owning domain by scanning all collections; if not found return
`false`; otherwise *first* delete every existing chunk of the item
(lines 1030-1037: `collection.delete(ids=...)` with exactly the ids of the
chunks whose `item_id` matches, modelled as filtering those records out);
take the new content from the overrides or else rebuild it by joining the
old chunk texts with spaces (lines 1056-1065); re-chunk; if no chunks
result return `false` (line 1084-1086, old chunks already gone); embed —
an embedding raise is caught by the outer handler (lines 1124-1129) and
returns `false`, again with the old chunks already gone; otherwise write
the new records and return `true`. -/
def update_knowledge (chunkF : String → List String)
    (embed : List String → Except Unit (List (List Int)))
    (st : Store) (iid : String) (newContent : Option String) :
    Bool × Store :=
  match findDomain st iid with
  | none => (false, st)
  | some d =>
    let coll := getColl st d
    let oldChunks := coll.filter (fun r => r.item_id == iid)
    let collAfterDelete := coll.filter (fun r => !(r.item_id == iid))
    let st1 := setColl st d collAfterDelete
    let content :=
      match newContent with
      | some c => c
      | none => " ".intercalate (oldChunks.map ChunkRecord.text)
    let texts := chunkF content
    if texts.isEmpty then (false, st1)
    else
      match embed texts with
      | .error _ => (false, st1)
      | .ok _ => (true, setColl st1 d (collAfterDelete ++ newRecords iid texts))

/-- `ChromaKnowledgeStore.delete_knowledge` (store.py lines 1131-1200):
locate the owning domain; `false` if not found; otherwise delete every
chunk whose `item_id` matches and return `true` (`false` in the unreachable
case of a located item with no chunks). -/
def delete_knowledge (st : Store) (iid : String) : Bool × Store :=
  match findDomain st iid with
  | none => (false, st)
  | some d =>
    let coll := getColl st d
    let chunks := coll.filter (fun r => r.item_id == iid)
    if chunks.isEmpty then (false, st)
    else (true, setColl st d (coll.filter (fun r => !(r.item_id == iid))))

/-! ### Store lemmas -/

/-- In the overwrite branch of `setColl`, the first collection named `d` in
the rewritten list carries the new records. -/
lemma find?_map_replace (d : String) (coll : List ChunkRecord) :
    ∀ t : Store, t.any (fun c => c.1 == d) = true →
      (t.map (fun c => if c.1 == d then (d, coll) else c)).find?
        (fun c => c.1 == d) = some (d, coll) := by
  intro t
  induction t with
  | nil => intro h; simp at h
  | cons a t ih =>
    intro hany
    by_cases ha : (a.1 == d) = true
    · simp only [List.map_cons, if_pos ha]
      rw [List.find?_cons_of_pos]
      simp
    · simp only [List.map_cons, if_neg ha]
      rw [List.find?_cons_of_neg]
      · apply ih
        simpa [List.any_cons, ha] using hany
      · simpa using ha

/-- Reading back the collection just written. -/
lemma getColl_setColl (st : Store) (d : String) (coll : List ChunkRecord) :
    getColl (setColl st d coll) d = coll := by
  unfold setColl
  by_cases hany : st.any (fun c => c.1 == d)
  · rw [if_pos hany]
    unfold getColl
    rw [find?_map_replace d coll st hany]
    rfl
  · rw [if_neg hany]
    unfold getColl
    rw [List.find?_append]
    have hnone : st.find? (fun c => c.1 == d) = none := by
      rw [List.find?_eq_none]
      intro x hx hxd
      exact hany (List.any_eq_true.mpr ⟨x, hx, hxd⟩)
    simp [hnone]

/-- Filtering for an item after filtering it out yields nothing. -/
lemma filter_item_of_filter_out (l : List ChunkRecord) (iid : String) :
    (l.filter (fun r => !(r.item_id == iid))).filter
      (fun r => r.item_id == iid) = [] := by
  rw [List.filter_eq_nil_iff]
  intro a ha
  have := (List.mem_filter.mp ha).2
  simp only [Bool.not_eq_true'] at this
  simp [this]

/-! ### Claims C3, C6, C9 -/

/-- The chunk texts sent to the embedder: `chunk_text` on the content
followed by projecting each chunk's `text` (store.py line 594). -/
def chunkTexts (cs : Nat) (sp : Except Unit (List String))
    (content : String) : List String :=
  (chunk_text cs sp content ()).map Chunk.text

/-- Concrete store for the update/delete examples: one domain `d` holding
one chunk of item `x`. -/
def updateExampleStore : Store :=
  [("d", [{ chunk_id := "x_chunk_0", item_id := "x", text := "hello" }])]

/-- Counterexample to claim C3 as stated: `update_knowledge` deletes the
item's existing chunks (store.py lines 1030-1037) *before* embedding
(line 1091); when embedding then fails, the outer handler returns `false`
(lines 1124-1129) but the previously stored chunks are no longer present
in the domain collection. -/
theorem update_embed_failure_counterexample :
    (update_knowledge (chunkTexts 1000 (Except.ok [])) embedFail
        updateExampleStore "x" (some "new text")).1 = false
    ∧ (getColl updateExampleStore "d").filter
        (fun r => r.item_id == "x") ≠ []
    ∧ (getColl (update_knowledge (chunkTexts 1000 (Except.ok [])) embedFail
          updateExampleStore "x" (some "new text")).2 "d").filter
        (fun r => r.item_id == "x") = [] := by
  decide

/-- Claim C3 (amended): if embedding fails during `update` on an existing
item, the failure aborts only that call — `update` returns `false` and no
exception propagates — but the item's previously stored chunks have already
been deleted from its domain collection, so after the call the item is left
with zero chunks (the delete-old-before-write-new risk window). -/
theorem update_embed_failure_deletes_chunks
    (chunkF : String → List String) (st : Store) (iid : String)
    (c : Option String) (d : String)
    (hfound : findDomain st iid = some d) :
    (update_knowledge chunkF embedFail st iid c).1 = false
    ∧ (getColl (update_knowledge chunkF embedFail st iid c).2 d).filter
        (fun r => r.item_id == iid) = [] := by
  have hres : update_knowledge chunkF embedFail st iid c
      = (false, setColl st d
          ((getColl st d).filter (fun r => !(r.item_id == iid)))) := by
    unfold update_knowledge
    rw [hfound]
    simp only [embedFail]
    split <;> rfl
  rw [hres]
  exact ⟨rfl, by rw [getColl_setColl]; exact filter_item_of_filter_out _ _⟩

/-- Witness for amended C3 at the concrete example store. -/
theorem update_embed_failure_deletes_chunks_witness :
    findDomain updateExampleStore "x" = some "d"
    ∧ ((update_knowledge (chunkTexts 1000 (Except.ok [])) embedFail
          updateExampleStore "x" (some "brand new")).1 = false
      ∧ (getColl (update_knowledge (chunkTexts 1000 (Except.ok [])) embedFail
            updateExampleStore "x" (some "brand new")).2 "d").filter
          (fun r => r.item_id == "x") = []) :=
  ⟨by decide,
   update_embed_failure_deletes_chunks (chunkTexts 1000 (Except.ok []))
     updateExampleStore "x" (some "brand new") "d" (by decide)⟩

/-- Claim C6: if the batch embedding call fails during `add`, the whole call
aborts with the error and no chunk records are committed to any collection —
the index state is exactly as it was before the call (the collection fetch
and write at store.py lines 601-623 only run after a successful embed). -/
theorem add_embed_failure_no_writes (chunkF : String → List String)
    (embed : List String → Except Unit (List (List Int)))
    (st : Store) (domain iid content : String)
    (hne : chunkF content ≠ [])
    (herr : embed (chunkF content) = Except.error ()) :
    add_knowledge chunkF embed st domain iid content
      = (Except.error (), st) := by
  unfold add_knowledge
  cases hchunks : chunkF content with
  | nil => exact absurd hchunks hne
  | cons a t =>
    rw [hchunks] at herr
    simp [herr]

/-- Witness for C6 at a concrete content and empty index. -/
theorem add_embed_failure_no_writes_witness :
    chunkTexts 1000 (Except.ok []) "hello" ≠ []
    ∧ embedFail (chunkTexts 1000 (Except.ok []) "hello") = Except.error ()
    ∧ add_knowledge (chunkTexts 1000 (Except.ok [])) embedFail []
        "rocketmq" "id1" "hello" = (Except.error (), []) :=
  ⟨by decide, rfl,
   add_embed_failure_no_writes (chunkTexts 1000 (Except.ok [])) embedFail []
     "rocketmq" "id1" "hello" (by decide) rfl⟩

/-- Claim C9: for every `item_id` present in no domain collection, `update`
returns `false` and `delete` returns `false`, neither mutates the index,
and neither raises (both Python bodies catch every exception and return
`false`; the miss path returns before any write). -/
theorem missing_item_update_delete_false (chunkF : String → List String)
    (embed : List String → Except Unit (List (List Int)))
    (st : Store) (iid : String) (c : Option String)
    (habsent : ∀ p ∈ st, ∀ r ∈ p.2, r.item_id ≠ iid) :
    update_knowledge chunkF embed st iid c = (false, st)
    ∧ delete_knowledge st iid = (false, st) := by
  have hnone : findDomain st iid = none := by
    unfold findDomain
    rw [List.find?_eq_none.mpr]
    · rfl
    · intro p hp h
      rcases List.any_eq_true.mp h with ⟨r, hr, hrid⟩
      exact habsent p hp r hr (by simpa using hrid)
  constructor
  · unfold update_knowledge
    rw [hnone]
  · unfold delete_knowledge
    rw [hnone]

/-- A store holding a single chunk of a single item `y`, for the C9
witness. -/
def missingIdRecord : ChunkRecord :=
  { chunk_id := "y_chunk_0", item_id := "y", text := "t" }

/-- The single-item store used by the C9 witness. -/
def missingIdStore : Store := [("d", [missingIdRecord])]

/-- Witness for C9: updating and deleting an unknown id on a store holding
only item `y` both return `false` and leave the store unchanged. -/
theorem missing_item_update_delete_false_witness :
    (∀ p ∈ missingIdStore, ∀ r ∈ p.2, r.item_id ≠ "unknown_id")
    ∧ (update_knowledge (chunkTexts 1000 (Except.ok [])) embedFail
          missingIdStore "unknown_id" none = (false, missingIdStore)
      ∧ delete_knowledge missingIdStore "unknown_id"
          = (false, missingIdStore)) :=
  ⟨by simp [missingIdStore, missingIdRecord],
   missing_item_update_delete_false (chunkTexts 1000 (Except.ok [])) embedFail
     missingIdStore "unknown_id" none
     (by simp [missingIdStore, missingIdRecord])⟩

/-! ## Bootstrap (`ChromaKnowledgeStore._should_reinitialize` and
`_initialize_rocketmq_knowledge`, store.py lines 434-539) -/

/-- `ROCKETMQ_KNOWLEDGE_VERSION` (rocketmq_init.py line 20). -/
def ROCKETMQ_KNOWLEDGE_VERSION : String := "1.0.0"

/-- The per-domain entry of the persisted `init_status.json` record:
`version`, `initialized_at`, `item_count`, `chunk_count`, `last_check`.
`version` is `Option` because `status.get("version")` may be missing;
Python's falsy test `if not current_version` also treats `""` as absent. -/
structure InitStatusEntry where
  version : Option String
  initialized_at : String
  item_count : Nat
  chunk_count : Nat
  last_check : String
deriving Repr, DecidableEq

/-- The state touched by one bootstrap access for one domain: the status
entry (if any), the chunk count of the domain's collection (`none` models a
missing or inaccessible collection, whose `get_collection` raises), and a
counter of index write operations performed (collection deletion and chunk
inserts; status-file saves are not index writes). -/
structure BootState where
  entry : Option InitStatusEntry
  collCount : Option Nat
  indexWrites : Nat
deriving Repr, DecidableEq

/-- `ChromaKnowledgeStore._should_reinitialize(domain, new_version)`
(store.py lines 434-470): reinitialize iff the domain was never initialized
(no entry, or missing/empty version), the version changed, the collection
is missing or inaccessible, or the collection is empty. -/
def shouldReinit (entry : Option InitStatusEntry)
    (newVersion : String) (collCount : Option Nat) : Bool :=
  match entry with
  | none => true
  | some s =>
    match s.version with
    | none => true
    | some v =>
      if v = "" then true
      else if v ≠ newVersion then true
      else
        match collCount with
        | none => true
        | some n => n == 0

/-- `ChromaKnowledgeStore._initialize_rocketmq_knowledge` (store.py
lines 481-533) for one bootstrap access at time `now`: when
`_should_reinitialize` holds, delete the old collection, run the
initializer (abstracted to its resulting `(item_count, chunk_count)` pair
and counted as index writes), and write a fresh status entry; otherwise
touch only `last_check` in the status entry and perform no index write. -/
def initialize_rocketmq (now : String) (initResult : Nat × Nat)
    (newVersion : String) (st : BootState) : BootState :=
  if shouldReinit st.entry newVersion st.collCount then
    { entry := some
        { version := some newVersion, initialized_at := now,
          item_count := initResult.1, chunk_count := initResult.2,
          last_check := now },
      collCount := some initResult.2,
      indexWrites := st.indexWrites + 1 + initResult.2 }
  else
    { st with entry := st.entry.map (fun s => { s with last_check := now }) }

/-- Claim C4: once a bootstrap domain is recorded as initialized at the
current version with a non-empty collection, a subsequent bootstrap access
performs zero index writes and leaves the persisted `item_count` and
`chunk_count` (and `version` and `initialized_at`) unchanged; the only
field modified in the status record is `last_check`. -/
theorem bootstrap_second_access_touches_only_last_check
    (st : BootState) (s : InitStatusEntry) (newVersion now : String)
    (initResult : Nat × Nat)
    (hentry : st.entry = some s)
    (hver : s.version = some newVersion)
    (hvne : newVersion ≠ "")
    (hcoll : ∃ n, st.collCount = some n ∧ 0 < n) :
    initialize_rocketmq now initResult newVersion st
      = { entry := some { s with last_check := now },
          collCount := st.collCount,
          indexWrites := st.indexWrites } := by
  obtain ⟨n, hn, hnpos⟩ := hcoll
  have hre : shouldReinit st.entry newVersion st.collCount = false := by
    rw [hentry, hn]
    simp [shouldReinit, hver, hvne, Nat.pos_iff_ne_zero.mp hnpos]
  unfold initialize_rocketmq
  rw [hre]
  simp only [Bool.false_eq_true, if_false, hentry]
  rfl

/-- A concrete initialized status entry: version `1.0.0`, 3 items,
17 chunks, last checked at `t0`. -/
def bootEntryExample : InitStatusEntry :=
  { version := some ROCKETMQ_KNOWLEDGE_VERSION, initialized_at := "t0", item_count := 3, chunk_count := 17, last_check := "t0" }

/-- A concrete bootstrap state: initialized entry, non-empty collection of
17 chunks, no index writes so far. -/
def bootStateExample : BootState :=
  { entry := some bootEntryExample, collCount := some 17, indexWrites := 0 }

/-- Witness for C4 at the concrete initialized state: the second access at
time `t1` only moves `last_check` to `t1`. -/
theorem bootstrap_second_access_touches_only_last_check_witness :
    bootStateExample.entry = some bootEntryExample
    ∧ bootEntryExample.version = some ROCKETMQ_KNOWLEDGE_VERSION
    ∧ ROCKETMQ_KNOWLEDGE_VERSION ≠ ""
    ∧ (∃ n, bootStateExample.collCount = some n ∧ 0 < n)
    ∧ initialize_rocketmq "t1" (3, 17) ROCKETMQ_KNOWLEDGE_VERSION
        bootStateExample
      = { entry := some { bootEntryExample with last_check := "t1" },
          collCount := bootStateExample.collCount,
          indexWrites := bootStateExample.indexWrites } :=
  ⟨rfl, rfl, by decide, ⟨17, rfl, by decide⟩,
   bootstrap_second_access_touches_only_last_check bootStateExample
     bootEntryExample ROCKETMQ_KNOWLEDGE_VERSION "t1" (3, 17) rfl rfl
     (by decide) ⟨17, rfl, by decide⟩⟩

end Nanobot
